import Mathlib

/-!
Verification development for the project-analysis core of the `code-assist`
repository (`src/analysis/structure.rs`, `src/analysis/parser.rs`,
`src/fs/search.rs`).

Strings are shallowly embedded as `List Char` (`Str`) so that every operation
is a structurally recursive, kernel-computable function.  All inputs exercised
here are ASCII, for which byte indices and character indices coincide and the
ASCII lowercasing below agrees with Rust's `str::to_lowercase`.  The
filesystem is embedded as the list of entries yielded by the recursive
directory walk, with paths relative to the scanned project root.
-/

/-- Character-list strings, the shallow embedding of Rust `&str`/`String`. -/
abbrev Str := List Char

/-- Convert a Lean string literal to the embedded representation. -/
def str (s : String) : Str := s.data

/-- ASCII lowercasing of one character (Rust `to_lowercase` on ASCII input). -/
def lowCh (c : Char) : Char :=
  if 65 ≤ c.toNat ∧ c.toNat ≤ 90 then Char.ofNat (c.toNat + 32) else c

/-- Lowercase a string (Rust `str::to_lowercase`, ASCII fragment). -/
def toLowerL (l : Str) : Str := l.map lowCh

/-- Prefix test: `pre? pat l` is true iff `pat` is a prefix of `l`
(Rust `str::starts_with`). -/
def pre? : Str → Str → Bool
  | [], _ => true
  | _ :: _, [] => false
  | a :: as, b :: bs => a = b && pre? as bs

/-- Fuel-driven substring scan used by `hasSub`. -/
def infAux : Nat → Str → Str → Bool
  | 0, _, _ => false
  | _ + 1, pat, [] => pre? pat []
  | fuel + 1, pat, l@(_ :: t) => pre? pat l || infAux fuel pat t

/-- Substring containment (Rust `str::contains`). -/
def hasSub (hay pat : Str) : Bool := infAux (hay.length + 1) pat hay

/-- Suffix test (Rust `str::ends_with`). -/
def endsWithL (hay pat : Str) : Bool := pre? pat.reverse hay.reverse

/-- Accumulator-based splitter used by `splitCh`. -/
def splitChAux (c : Char) : Str → Str → List Str
  | [], acc => [acc.reverse]
  | x :: xs, acc =>
    if x = c then acc.reverse :: splitChAux c xs [] else splitChAux c xs (x :: acc)

/-- Split on a separator character (Rust `str::split(char)`). -/
def splitCh (c : Char) (l : Str) : List Str := splitChAux c l []

/-- Trim unicode whitespace from both ends (Rust `str::trim`). -/
def trimL (l : Str) : Str :=
  ((l.dropWhile Char.isWhitespace).reverse.dropWhile Char.isWhitespace).reverse

/-- Fuel-driven worker for `countOccs`. -/
def countOccsAux : Nat → Str → Str → Nat
  | 0, _, _ => 0
  | _ + 1, [], _ => 0
  | fuel + 1, hay@(_ :: t), pat =>
    if pre? pat hay then 1 + countOccsAux fuel (hay.drop pat.length) pat
    else countOccsAux fuel t pat

/-- Count of non-overlapping left-to-right occurrences of `pat` in `hay`
(Rust `content.matches(pat).count()`; an empty pattern matches at every
character boundary). -/
def countOccs (hay pat : Str) : Nat :=
  if pat.isEmpty then hay.length + 1 else countOccsAux hay.length hay pat

/-- Worker for `findSub`. -/
def findSubAux (pat : Str) : Str → Nat → Option Nat
  | [], i => if pre? pat [] then some i else none
  | hay@(_ :: t), i => if pre? pat hay then some i else findSubAux pat t (i + 1)

/-- Index of the leftmost occurrence of `pat` in `hay` (Rust `str::find`;
character index, which equals the byte index on the ASCII inputs used here). -/
def findSub (hay pat : Str) : Option Nat := findSubAux pat hay 0

/-- Join strings with a separator (Rust `join` / path display). -/
def intercal (sep : Str) : List Str → Str
  | [] => []
  | [x] => x
  | x :: xs => x ++ sep ++ intercal sep xs

/-- Strip a single leading occurrence of `p` (Rust `str::strip_prefix`,
`None` when `p` is not a prefix). -/
def stripPre (p l : Str) : Option Str :=
  if pre? p l then some (l.drop p.length) else none

/-- Fuel-driven worker for `trimStartMatchesL`. -/
def trimStartMatchesAux : Nat → Str → Str → Str
  | 0, l, _ => l
  | fuel + 1, l, pat =>
    if pat.isEmpty then l
    else
      match stripPre pat l with
      | some l' => trimStartMatchesAux fuel l' pat
      | none => l

/-- Remove all leading repetitions of `pat` (Rust `trim_start_matches(&str)`). -/
def trimStartMatchesL (l pat : Str) : Str :=
  trimStartMatchesAux (l.length + 1) l pat

/-- Remove all trailing repetitions of `pat` (Rust `trim_end_matches(&str)`). -/
def trimEndMatchesL (l pat : Str) : Str :=
  (trimStartMatchesL l.reverse pat.reverse).reverse

/-- Remove all leading and trailing occurrences of character `c`
(Rust `str::trim_matches(char)`). -/
def trimMatchesChar (l : Str) (c : Char) : Str :=
  ((l.dropWhile (· = c)).reverse.dropWhile (· = c)).reverse

/-- Character class `[a-zA-Z0-9_]` of the hook regexes. -/
def isWordChar (c : Char) : Bool := c.isAlpha || c.isDigit || c = '_'

/-- A filesystem path relative to the project root, one component per entry. -/
abbrev FPath := List Str

/-- Display a relative path (Rust `Path::to_string_lossy`, `/` separator). -/
def pathToStr (p : FPath) : Str := intercal (str "/") p

/-- Rust `Path::extension` on a file name: the portion after the last `.`,
`none` when there is no dot or the only dot is the leading one. -/
def rustExtension (f : Str) : Option Str :=
  let parts := splitCh '.' f
  if parts.length ≤ 1 then none
  else if parts.headD [] = [] ∧ parts.length = 2 then none
  else parts.getLast?

/-- Rust `Path::file_stem` on a file name. -/
def rustFileStem (f : Str) : Option Str :=
  match rustExtension f with
  | none => some f
  | some e => some (f.take (f.length - e.length - 1))

/-- Rust `Path::extension` applied to a relative path. -/
def pathExtension (p : FPath) : Option Str :=
  match p.getLast? with
  | some f => rustExtension f
  | none => none

/-- Rust `content.lines()`: split on `\n`, drop a trailing empty segment,
strip a trailing `\r` from each line. -/
def rustLines (s : Str) : List Str :=
  let segs := splitCh '\n' s
  let segs := if segs.getLast? = some [] then segs.dropLast else segs
  segs.map (fun ln => if endsWithL ln (str "\r") then ln.dropLast else ln)

/-! ## Relevance search engine (`src/fs/search.rs`) -/

/-- Per-file language/framework signature vector
(`LanguageSignatures` in `search.rs`). -/
structure LanguageSignatures where
  is_rust : Bool := false
  is_python : Bool := false
  is_php : Bool := false
  is_javascript : Bool := false
  is_go : Bool := false
  is_angular : Bool := false
  is_react : Bool := false
  is_drupal : Bool := false
  is_drupal_info : Bool := false
  is_drupal_services : Bool := false
  is_drupal_template : Bool := false
deriving DecidableEq

/-- The inferred target language of a search (`SearchLanguage` in `search.rs`). -/
inductive SearchLanguage where
  | Rust
  | Python
  | JavaScript
  | PHP
  | Drupal
  | Go
  | Generic
deriving DecidableEq

/-- `CodeSearch::detect_language_signatures`: conjunctive substring tests on
the lowercased content. -/
def detectLanguageSignatures (content : Str) : LanguageSignatures :=
  { is_rust := hasSub content (str "fn ") &&
      (hasSub content (str "struct ") || hasSub content (str "impl ") ||
       hasSub content (str "pub ") || hasSub content (str "use std::") ||
       hasSub content (str "mod "))
    is_python := hasSub content (str "def ") &&
      (hasSub content (str "import ") || hasSub content (str "class ") ||
       hasSub content (str "if __name__ == ") || hasSub content (str "self."))
    is_php := hasSub content (str "<?php") ||
      (hasSub content (str "namespace") && hasSub content (str ";")) ||
      (hasSub content (str "use ") && hasSub content (str "\\") && hasSub content (str ";"))
    is_javascript := hasSub content (str "function") &&
      (hasSub content (str "var ") || hasSub content (str "let ") ||
       hasSub content (str "const ") || hasSub content (str "import ") ||
       hasSub content (str "export "))
    is_angular := hasSub content (str "@component") ||
      hasSub content (str "@injectable") || hasSub content (str "@ngmodule")
    is_react := hasSub content (str "react") &&
      (hasSub content (str "component") || hasSub content (str "render") ||
       hasSub content (str "jsx") || hasSub content (str "</>"))
    is_go := hasSub content (str "package ") &&
      (hasSub content (str "func ") || hasSub content (str "import (") ||
       (hasSub content (str "type ") && hasSub content (str "struct \x7b")))
    is_drupal := hasSub content (str "drupal") || hasSub content (str "hook_") ||
      hasSub content (str "module_implements") || hasSub content (str "@plugin") ||
      hasSub content (str "pluginbase") || hasSub content (str "\\plugin\\") ||
      hasSub content (str "\\form\\") || hasSub content (str "\\entity\\") ||
      hasSub content (str "drupalconsole") || hasSub content (str "@implements")
    is_drupal_info := hasSub content (str "type: module") ||
      hasSub content (str "core_version_requirement") || hasSub content (str "core: ")
    is_drupal_services := hasSub content (str "services:") && hasSub content (str "class:")
    is_drupal_template := hasSub content (str "\x7b\x7b content \x7d\x7d") ||
      hasSub content (str "\x7b\x7b attach_library") ||
      hasSub content (str "\x7b\x7b \x27drupal") }

/-- `CodeSearch::get_language_boost`: fixed per-(signature, keyword) multiplier
for an already-lowercased keyword. -/
def getLanguageBoost (keyword : Str) (s : LanguageSignatures) : Nat :=
  if s.is_rust && (keyword = str "rust" || hasSub keyword (str "fn ") ||
      hasSub keyword (str "struct ") || hasSub keyword (str "impl ")) then 3
  else if s.is_python && (keyword = str "python" || hasSub keyword (str "def ") ||
      hasSub keyword (str "import ") || hasSub keyword (str "class ")) then 3
  else if s.is_php && (keyword = str "php" || hasSub keyword (str "php")) then 3
  else if s.is_drupal && (keyword = str "drupal" || hasSub keyword (str "drupal") ||
      hasSub keyword (str "module")) then 4
  else if s.is_drupal_info && (hasSub keyword (str "info") ||
      hasSub keyword (str "configuration")) then 5
  else if s.is_drupal_services && (hasSub keyword (str "service") ||
      hasSub keyword (str "dependency")) then 5
  else if s.is_drupal_template && (hasSub keyword (str "template") ||
      hasSub keyword (str "twig")) then 5
  else if s.is_javascript && (hasSub keyword (str "js") ||
      hasSub keyword (str "javascript")) then 3
  else if s.is_angular && (hasSub keyword (str "angular") ||
      hasSub keyword (str "component") || hasSub keyword (str "service")) then 4
  else if s.is_react && (hasSub keyword (str "react") ||
      hasSub keyword (str "component") || hasSub keyword (str "jsx")) then 4
  else if s.is_go && (keyword = str "go" || hasSub keyword (str "golang") ||
      hasSub keyword (str "func ")) then 3
  else 1

/-- `CodeSearch::detect_search_language`: per-language keyword tallies; the
language with the (tie-favouring-Drupal) largest tally wins. -/
def detectSearchLanguage (keywords : List Str) : Option SearchLanguage :=
  let rustCount := (keywords.filter (fun kw =>
    let k := toLowerL kw
    hasSub k (str "rust") || hasSub k (str "cargo") || hasSub k (str "crate") ||
    hasSub k (str "fn "))).length
  let pythonCount := (keywords.filter (fun kw =>
    let k := toLowerL kw
    hasSub k (str "python") || hasSub k (str "django") || hasSub k (str "flask") ||
    hasSub k (str "def "))).length
  let phpCount := (keywords.filter (fun kw => hasSub (toLowerL kw) (str "php"))).length
  let drupalCount := (keywords.filter (fun kw =>
    let k := toLowerL kw
    hasSub k (str "drupal") || hasSub k (str "hook_") || hasSub k (str "module") ||
    hasSub k (str "block") || hasSub k (str "entity") || hasSub k (str "field") ||
    hasSub k (str "form") || hasSub k (str "plugin") || hasSub k (str "token"))).length
  let jsCount := (keywords.filter (fun kw =>
    let k := toLowerL kw
    hasSub k (str "js") || hasSub k (str "javascript") || hasSub k (str "angular") ||
    hasSub k (str "react") || hasSub k (str "node") || hasSub k (str "component") ||
    hasSub k (str "directive"))).length
  let goCount := (keywords.filter (fun kw =>
    let k := toLowerL kw
    hasSub k (str "go") || hasSub k (str "golang") || hasSub k (str "func "))).length
  let maxCount := [rustCount, pythonCount, phpCount, drupalCount, jsCount, goCount].foldr
    Nat.max 0
  if maxCount > 0 then
    if drupalCount = maxCount then some SearchLanguage.Drupal
    else if rustCount = maxCount then some SearchLanguage.Rust
    else if pythonCount = maxCount then some SearchLanguage.Python
    else if jsCount = maxCount then some SearchLanguage.JavaScript
    else if phpCount = maxCount then some SearchLanguage.PHP
    else if goCount = maxCount then some SearchLanguage.Go
    else some SearchLanguage.Generic
  else some SearchLanguage.Generic

/-- The contribution of one keyword in the accumulation loop of
`calculate_relevance`: occurrence count times the language boost (plain count
when the boost is 1). -/
def keywordTerm (contentLower : Str) (sigs : LanguageSignatures) (kw : Str) : Nat :=
  let kl := toLowerL kw
  let c := countOccs contentLower kl
  let b := getLanguageBoost kl sigs
  if b > 1 then c * b else c

/-- The per-keyword accumulation loop of `calculate_relevance`. -/
def keywordScore (contentLower : Str) (sigs : LanguageSignatures)
    (keywords : List Str) : Nat :=
  keywords.foldl (fun acc kw => acc + keywordTerm contentLower sigs kw) 0

/-- The flat search-language bonus block of `calculate_relevance` (the `match`
over the inferred search language, including the Drupal component-search
path bonuses). -/
def langBonus (lang : SearchLanguage) (sigs : LanguageSignatures)
    (keywords : List Str) (contentLower : Str) : Nat :=
  match lang with
  | SearchLanguage.Rust => if sigs.is_rust then 25 else 0
  | SearchLanguage.Python => if sigs.is_python then 25 else 0
  | SearchLanguage.JavaScript =>
    (if sigs.is_javascript then 20 else 0) + (if sigs.is_angular then 25 else 0) +
    (if sigs.is_react then 25 else 0)
  | SearchLanguage.PHP => if sigs.is_php then 25 else 0
  | SearchLanguage.Drupal =>
    (if sigs.is_drupal then 30 else 0) + (if sigs.is_drupal_info then 35 else 0) +
    (if sigs.is_drupal_services then 35 else 0) +
    (if sigs.is_drupal_template then 25 else 0) +
    (if keywords.any (fun k =>
        let kl := toLowerL k
        hasSub kl (str "plugin") || hasSub kl (str "block") || hasSub kl (str "field") ||
        hasSub kl (str "form") || hasSub kl (str "controller") || hasSub kl (str "entity"))
     then
       (if hasSub contentLower (str "\\plugin\\") then 40 else 0) +
       (if hasSub contentLower (str "\\form\\") then 40 else 0) +
       (if hasSub contentLower (str "\\entity\\") then 40 else 0)
     else 0)
  | SearchLanguage.Go => if sigs.is_go then 25 else 0
  | SearchLanguage.Generic => 0

/-- `CodeSearch::calculate_relevance`: keyword score, flat search-language
bonus, then the Drupal-vs-JavaScript halving penalty. -/
def calcRelevance (content : Str) (keywords : List Str) : Nat :=
  let contentLower := toLowerL content
  let sigs := detectLanguageSignatures contentLower
  let score := keywordScore contentLower sigs keywords
  match detectSearchLanguage keywords with
  | none => score
  | some lang =>
    let score2 := score + langBonus lang sigs keywords contentLower
    if lang = SearchLanguage.Drupal ∧ sigs.is_javascript = true ∧
        hasSub contentLower (str "drupal") = false then
      score2 / 2
    else score2

/-- `calculate_relevance` with the final halving penalty omitted; used to
state exactly when the penalty fires. -/
def calcRelevanceNoPenalty (content : Str) (keywords : List Str) : Nat :=
  let contentLower := toLowerL content
  let sigs := detectLanguageSignatures contentLower
  let score := keywordScore contentLower sigs keywords
  match detectSearchLanguage keywords with
  | none => score
  | some lang => score + langBonus lang sigs keywords contentLower

/-- The binary-extension noise list of `CodeSearch::is_binary_or_large_file`. -/
def binaryExtensions : List Str :=
  [str "exe", str "dll", str "obj", str "bin", str "so", str "dylib", str "a",
   str "o", str "class", str "pyc", str "pyd", str "jpg", str "jpeg", str "png",
   str "gif", str "bmp", str "ico", str "svg", str "pdf", str "zip", str "tar",
   str "gz", str "tgz", str "rar", str "7z", str "jar", str "war"]

/-- `CodeSearch::is_binary_or_large_file`: extension in the binary list, or
file larger than 1 MiB (the on-disk size of a walked text file is the byte
length of its content, embedded here as the character count of its ASCII
content). -/
def isBinaryOrLargeFile (p : FPath) (content : Str) : Bool :=
  let ext := (pathExtension p).getD []
  binaryExtensions.contains ext || content.length > 1024 * 1024

/-- One iteration of the `find_relevant_files` walk loop: skip binary/large
files, keep `(path, relevance)` when the relevance is strictly positive. -/
def relevantStep (keywords : List Str) (acc : List (FPath × Nat))
    (pc : FPath × Str) : List (FPath × Nat) :=
  if isBinaryOrLargeFile pc.1 pc.2 then acc
  else
    let r := calcRelevance pc.2 keywords
    if r > 0 then acc ++ [(pc.1, r)] else acc

/-- The accumulation loop of `find_relevant_files` over the walked readable
files in order. -/
def relevantAccum (files : List (FPath × Str)) (keywords : List Str) :
    List (FPath × Nat) :=
  files.foldl (relevantStep keywords) []

/-- The scored, descending-sorted list built by `find_relevant_files` just
before the paths are extracted.  Rust's `sort_by(|a, b| b.1.cmp(&a.1))` is a
stable descending sort, embedded as a stable insertion sort with the same
comparator. -/
def scoredFiles (files : List (FPath × Str)) (keywords : List Str) :
    List (FPath × Nat) :=
  if keywords.isEmpty then []
  else List.insertionSort (fun a b => b.2 ≤ a.2) (relevantAccum files keywords)

/-- `CodeSearch::find_relevant_files` on the walked readable files: the scored
list with the scores dropped. -/
def findRelevantFiles (files : List (FPath × Str)) (keywords : List Str) :
    List FPath :=
  (scoredFiles files keywords).map Prod.fst

/-- One grep match (`SearchResult` in `search.rs`). -/
structure SearchResult where
  file_path : FPath
  line_number : Nat
  line_content : Str
deriving DecidableEq

/-- `CodeSearch::search_in_files`.  The external regex engine is abstracted as
`compileRx`: `none` models `Regex::new` failing on an unparseable pattern (the
`?` operator then propagates the error before any file is examined), `some m`
models a compiled regex with line matcher `m`. -/
def searchInFiles (compileRx : Str → Option (Str → Bool))
    (files : List (FPath × Str)) (pattern : Str) :
    Except Unit (List SearchResult) :=
  match compileRx pattern with
  | none => Except.error ()
  | some m =>
    Except.ok (files.foldl (fun acc pc =>
      if isBinaryOrLargeFile pc.1 pc.2 then acc
      else
        acc ++ ((rustLines pc.2).enum.filterMap (fun li =>
          if m li.2 then
            some { file_path := pc.1, line_number := li.1 + 1, line_content := li.2 }
          else none))) [])

/-! ## Project structure analyzer (`src/analysis/structure.rs`) -/

/-- The boolean feature vector built by `scan_project_features`
(`ProjectFeatures` in `structure.rs`; every field defaults to `false`). -/
structure ProjectFeatures where
  has_drupal_core : Bool := false
  has_drupal_modules_dir : Bool := false
  has_info_yml : Bool := false
  has_drupal_module_file : Bool := false
  has_drupal_module_extension : Bool := false
  has_drupal_php_code : Bool := false
  has_drupal_plugin_dir : Bool := false
  has_src_dir : Bool := false
  has_node_modules : Bool := false
  has_git : Bool := false
  has_rust_target : Bool := false
  has_php_files : Bool := false
  has_rust_files : Bool := false
  has_python_files : Bool := false
  has_js_files : Bool := false
  has_ts_files : Bool := false
  has_jsx_files : Bool := false
  has_tsx_files : Bool := false
  has_go_files : Bool := false
  has_cargo_toml : Bool := false
  has_package_json : Bool := false
  has_angular_json : Bool := false
  has_composer_json : Bool := false
  has_pyproject_toml : Bool := false
  has_requirements_txt : Bool := false
  has_setup_py : Bool := false
  has_go_mod : Bool := false
deriving DecidableEq

/-- The closed project-type enumeration (`ProjectType` in `structure.rs`). -/
inductive ProjectType where
  | Drupal
  | DrupalModule
  | Rust
  | Python
  | JavaScript
  | TypeScript
  | Go
  | PHP
  | Angular
  | React
  | Generic
deriving DecidableEq

/-- One entry yielded by the bounded recursive walk of the project tree:
a root-relative path, a directory flag, and (for files) the UTF-8 content.
Content reads (`std::fs::read_to_string`) succeed on every modelled entry;
unreadable entries are simply absent from the list, matching the walk's
skip-on-error behaviour. -/
structure Entry where
  path : FPath
  isDir : Bool
  content : Str
deriving DecidableEq

/-- The scanned project tree: the name of the root directory itself plus the
entries yielded by the walk (paths relative to the root, parents before
children). -/
structure FS where
  rootName : Str
  entries : List Entry
deriving DecidableEq

/-- Rust `path.exists()` for a root-relative path (the root itself always
exists). -/
def fsExists (fs : FS) (p : FPath) : Bool :=
  p.isEmpty || fs.entries.any (fun e => e.path = p)

/-- Rust `path.is_dir()` for a root-relative path. -/
def fsIsDir (fs : FS) (p : FPath) : Bool :=
  p.isEmpty || fs.entries.any (fun e => e.isDir && e.path = p)

/-- Read a file's content (`std::fs::read_to_string`), `none` when no such
file entry exists. -/
def readFile (fs : FS) (p : FPath) : Option Str :=
  (fs.entries.find? (fun e => !e.isDir && e.path = p)).map Entry.content

/-- `ProjectAnalyzer::should_ignore_dir`: fixed ignore list plus any
dot-prefixed directory name. -/
def shouldIgnoreDir (p : FPath) : Bool :=
  match p.getLast? with
  | some dn =>
    [str ".git", str "node_modules", str "target", str "build", str "dist",
     str "venv", str "__pycache__", str ".idea", str ".vscode", str "vendor",
     str ".next", str "out"].contains dn || pre? (str ".") dn
  | none => false

/-- `ProjectAnalyzer::should_ignore_file`: fixed binary/noise extension list. -/
def shouldIgnoreFile (p : FPath) : Bool :=
  match pathExtension p with
  | some ext =>
    [str "pyc", str "exe", str "dll", str "so", str "o", str "obj", str "class",
     str "jpg", str "png", str "gif", str "pdf", str "bin", str "lock",
     str "woff", str "woff2", str "ttf"].contains ext
  | none => false

/-- The extension-to-files mapping (`files_by_type: HashMap<String, Vec<PathBuf>>`),
embedded as an association list in key-creation order with per-key insertion
order preserved. -/
abbrev Buckets := List (Str × List FPath)

/-- Lookup in the extension mapping (Rust `HashMap::get`). -/
def bucketsGet : Buckets → Str → Option (List FPath)
  | [], _ => none
  | (k0, ps) :: rest, k => if k0 = k then some ps else bucketsGet rest k

/-- `files_by_type.entry(ext).or_insert_with(Vec::new).push(path)`. -/
def bucketsInsert : Buckets → Str → FPath → Buckets
  | [], k, p => [(k, [p])]
  | (k0, ps) :: rest, k, p =>
    if k0 = k then (k0, ps ++ [p]) :: rest else (k0, ps) :: bucketsInsert rest k p

/-- The mutable state threaded through the `scan_project_features` walk loop. -/
structure ScanState where
  feats : ProjectFeatures
  dirs : List FPath
  buckets : Buckets
deriving DecidableEq

/-- The directory-name feature updates of the walk loop (the `match dir_name`
block of `scan_project_features`). -/
def dirFeatUpdate (f : ProjectFeatures) (p : FPath) : ProjectFeatures :=
  match p.getLast? with
  | none => f
  | some dn =>
    if dn = str "core" then { f with has_drupal_core := true }
    else if dn = str "src" then { f with has_src_dir := true }
    else if dn = str "node_modules" then { f with has_node_modules := true }
    else if dn = str ".git" then { f with has_git := true }
    else if dn = str "target" then { f with has_rust_target := true }
    else if dn = str "Plugin" then
      if [str "src"].isPrefixOf p then { f with has_drupal_plugin_dir := true } else f
    else f

/-- The file-name feature updates of the walk loop (the `match file_name`
block of `scan_project_features`, including the `.info.yml` sentinel read). -/
def fileNameFeatUpdate (f : ProjectFeatures) (p : FPath) (content : Str) :
    ProjectFeatures :=
  match p.getLast? with
  | none => f
  | some fn =>
    if fn = str "Cargo.toml" then { f with has_cargo_toml := true }
    else if fn = str "package.json" then { f with has_package_json := true }
    else if fn = str "angular.json" then { f with has_angular_json := true }
    else if fn = str "composer.json" then { f with has_composer_json := true }
    else if fn = str "pyproject.toml" then { f with has_pyproject_toml := true }
    else if fn = str "requirements.txt" then { f with has_requirements_txt := true }
    else if fn = str "setup.py" then { f with has_setup_py := true }
    else if fn = str "go.mod" then { f with has_go_mod := true }
    else if endsWithL fn (str ".info.yml") then
      let f := { f with has_info_yml := true }
      if hasSub content (str "type: module") then { f with has_drupal_module_file := true }
      else f
    else if endsWithL fn (str ".module") then { f with has_drupal_module_extension := true }
    else f

/-- The extension feature updates of the walk loop (the `match ext` block of
`scan_project_features`, including the Drupal PHP-code content test). -/
def extFeatUpdate (f : ProjectFeatures) (ext : Str) (content : Str) :
    ProjectFeatures :=
  if ext = str "php" then
    let f := { f with has_php_files := true }
    if hasSub content (str "Drupal\\") ||
        (hasSub content (str "function") && hasSub content (str "_hook_")) ||
        (hasSub content (str "implements") && hasSub content (str "Hook")) then
      { f with has_drupal_php_code := true }
    else f
  else if ext = str "rs" then { f with has_rust_files := true }
  else if ext = str "py" then { f with has_python_files := true }
  else if ext = str "js" then { f with has_js_files := true }
  else if ext = str "ts" then { f with has_ts_files := true }
  else if ext = str "jsx" then { f with has_jsx_files := true }
  else if ext = str "tsx" then { f with has_tsx_files := true }
  else if ext = str "go" then { f with has_go_files := true }
  else f

/-- One iteration of the `scan_project_features` walk loop.  Note that the
walk itself never prunes: `should_ignore_dir` only guards the directory list
and directory feature flags, and `should_ignore_file` only guards the file
processing — entries beneath ignored directories are still visited. -/
def scanStep (st : ScanState) (e : Entry) : ScanState :=
  if e.isDir then
    if shouldIgnoreDir e.path then st
    else
      { st with dirs := st.dirs ++ [e.path], feats := dirFeatUpdate st.feats e.path }
  else
    if shouldIgnoreFile e.path then st
    else
      let st := { st with feats := fileNameFeatUpdate st.feats e.path e.content }
      match pathExtension e.path with
      | some ext =>
        { st with feats := extFeatUpdate st.feats ext e.content,
                  buckets := bucketsInsert st.buckets ext e.path }
      | none => st

/-- `ProjectAnalyzer::scan_project_features`: fold the walk loop over the
entries, then apply the post-loop `has_drupal_modules_dir` check. -/
def scanProjectFeatures (fs : FS) : ScanState :=
  let st := fs.entries.foldl scanStep { feats := {}, dirs := [], buckets := [] }
  { st with feats := { st.feats with
      has_drupal_modules_dir :=
        fsExists fs [str "web", str "modules"] || fsExists fs [str "modules"] } }

/-- `ProjectAnalyzer::is_drupal_module` for the directory at root-relative
path `p`.  The Rust code tests the absolute path string for
`modules/custom`/`modules/contrib`; the embedding assumes the location of the
project root on disk contains neither marker, so the test reduces to the
root-relative path. -/
def isDrupalModule (fs : FS) (p : FPath) : Bool :=
  let pathStr := pathToStr p
  if hasSub pathStr (str "modules/custom") || hasSub pathStr (str "modules/contrib") then
    true
  else
    let hasInfoYmlAtRoot := fs.entries.any (fun e =>
      e.path.dropLast = p ∧ 1 ≤ e.path.length ∧
      endsWithL (e.path.getLastD []) (str ".info.yml"))
    let hasModuleFileAtRoot := fs.entries.any (fun e =>
      e.path.dropLast = p ∧ 1 ≤ e.path.length ∧
      endsWithL (e.path.getLastD []) (str ".module"))
    let hasPluginDir := fsExists fs (p ++ [str "src", str "Plugin"])
    let hasDrupalDependency :=
      if fsExists fs (p ++ [str "composer.json"]) then
        match readFile fs (p ++ [str "composer.json"]) with
        | some content => hasSub content (str "drupal/core")
        | none => false
      else false
    if fsExists fs (p ++ [str "web", str "modules", str "custom"]) &&
        fsExists fs (p ++ [str "core"]) && fsExists fs (p ++ [str "composer.json"]) then
      false
    else
      hasInfoYmlAtRoot && (hasModuleFileAtRoot || hasPluginDir || hasDrupalDependency)

/-- `ProjectAnalyzer::find_all_drupal_modules`: scan the four conventional
module directories and the root itself. -/
def findAllDrupalModules (fs : FS) : List (Str × FPath) :=
  let moduleDirs : List FPath :=
    [[str "web", str "modules", str "custom"],
     [str "modules", str "custom"],
     [str "web", str "modules", str "contrib"],
     [str "modules", str "contrib"],
     []]
  moduleDirs.foldl (fun acc dir =>
    if fsExists fs dir && fsIsDir fs dir then
      if dir ≠ [] then
        acc ++ (fs.entries.filterMap (fun e =>
          if e.isDir && e.path.dropLast = dir && 1 ≤ e.path.length &&
              isDrupalModule fs e.path then
            some (e.path.getLastD [], e.path)
          else none))
      else
        if isDrupalModule fs [] then acc ++ [(fs.rootName, ([] : FPath))] else acc
    else acc) []

/-- The non-Drupal priority chain of `determine_project_type` (the
`if`/`else if` ladder after the Drupal branch falls through). -/
def fallbackProjectType (feats : ProjectFeatures) (buckets : Buckets) :
    ProjectType × List (Str × FPath) :=
  if feats.has_cargo_toml then (ProjectType.Rust, [])
  else if feats.has_angular_json && feats.has_package_json then (ProjectType.Angular, [])
  else if feats.has_package_json && (feats.has_jsx_files || feats.has_tsx_files ||
      ((bucketsGet buckets (str "js")).getD []).any
        (fun p => hasSub (pathToStr p) (str "react"))) then
    (ProjectType.React, [])
  else if feats.has_pyproject_toml || feats.has_requirements_txt || feats.has_setup_py then
    (ProjectType.Python, [])
  else if feats.has_go_mod || feats.has_go_files then (ProjectType.Go, [])
  else if feats.has_js_files || feats.has_ts_files then (ProjectType.JavaScript, [])
  else if feats.has_php_files then (ProjectType.PHP, [])
  else (ProjectType.Generic, [])

/-- `ProjectAnalyzer::determine_project_type`: the Drupal branch is examined
first; when it does not return, the priority ladder decides. -/
def determineProjectType (fs : FS) (feats : ProjectFeatures) (buckets : Buckets) :
    ProjectType × List (Str × FPath) :=
  let isDrupalSite := feats.has_drupal_core || feats.has_drupal_modules_dir
  if isDrupalSite || (feats.has_info_yml &&
      (feats.has_drupal_module_file || feats.has_drupal_php_code)) then
    let drupalModules := findAllDrupalModules fs
    if !drupalModules.isEmpty then
      if isDrupalModule fs [] then (ProjectType.DrupalModule, drupalModules)
      else (ProjectType.Drupal, drupalModules)
    else fallbackProjectType feats buckets
  else fallbackProjectType feats buckets

/-! ### Hook-extraction regexes

`structure.rs` uses Rust's leftmost-first regex engine with the two patterns
`function\s+([a-zA-Z0-9_]+)_hook_([a-zA-Z0-9_]+)` and
`@(Implements|implements)\s+hook_([a-zA-Z0-9_]+)`.  The scanners below
reproduce the engine's behaviour on these fixed patterns: matches are found
left to right without overlap; a greedy first group makes `_hook_` bind at
its last viable occurrence inside the word-character run. -/

/-- Split a word-character run `W` as `g1 ++ "_hook_" ++ g2` with `g1`, `g2`
non-empty, `g1` maximal (the greedy first capture group); returns `g2`. -/
def lastHookSplit (W : Str) : Option Str :=
  let n := W.length
  let js := (List.range n).filter (fun j =>
    1 ≤ j && pre? (str "_hook_") (W.drop j) && j + 6 < n)
  match js.getLast? with
  | some j => some (W.drop (j + 6))
  | none => none

/-- Try the `function\s+..._hook_...` pattern at the current position;
returns the second capture group and the number of characters consumed. -/
def tryHookAt (l : Str) : Option (Str × Nat) :=
  if pre? (str "function") l then
    let l1 := l.drop 8
    let ws := (l1.takeWhile Char.isWhitespace).length
    if ws = 0 then none
    else
      let W := (l1.drop ws).takeWhile isWordChar
      match lastHookSplit W with
      | some g2 => some (g2, 8 + ws + W.length)
      | none => none
  else none

/-- Fuel-driven scanner collecting all `hook_<g2>` strings for the
`function` hook regex (Rust `captures_iter` plus the `format!("hook_{}")`). -/
def hookScanAux : Nat → Str → List Str
  | 0, _ => []
  | _, [] => []
  | fuel + 1, l@(_ :: t) =>
    match tryHookAt l with
    | some (g2, consumed) => (str "hook_" ++ g2) :: hookScanAux fuel (l.drop consumed)
    | none => hookScanAux fuel t

/-- All canonical hook names matched by the `function` hook regex in order. -/
def hookCapturesIter (s : Str) : List Str := hookScanAux s.length s

/-- Try the `@(Implements|implements)\s+hook_...` pattern at the current
position; returns the hook-name capture group and the characters consumed. -/
def tryAnnAt (l : Str) : Option (Str × Nat) :=
  if pre? (str "@") l then
    let l1 := l.drop 1
    let kwLen :=
      if pre? (str "Implements") l1 then some 10
      else if pre? (str "implements") l1 then some 10
      else none
    match kwLen with
    | none => none
    | some k =>
      let l2 := l1.drop k
      let ws := (l2.takeWhile Char.isWhitespace).length
      if ws = 0 then none
      else
        let l3 := l2.drop ws
        if pre? (str "hook_") l3 then
          let w := (l3.drop 5).takeWhile isWordChar
          if w.length = 0 then none else some (w, 1 + k + ws + 5 + w.length)
        else none
  else none

/-- Fuel-driven scanner collecting all captures of the annotation regex. -/
def annScanAux : Nat → Str → List Str
  | 0, _ => []
  | _, [] => []
  | fuel + 1, l@(_ :: t) =>
    match tryAnnAt l with
    | some (w, consumed) => w :: annScanAux fuel (l.drop consumed)
    | none => annScanAux fuel t

/-- All raw captures of the `@Implements hook_X` regex in order. -/
def annCapturesIter (s : Str) : List Str := annScanAux s.length s

/-- First capture of the `@Implements hook_X` regex (Rust `Regex::captures`). -/
def implementsHookCapture (s : Str) : Option Str := (annCapturesIter s).head?

/-! ### Type-specific info gatherers -/

/-- Drupal-module summary (`DrupalModuleInfo` in `structure.rs`). -/
structure DrupalModuleInfo where
  name : Str
  description : Str
  module_file : Option FPath
  info_file : Option FPath
  config_schemas : List FPath
  has_plugins : Bool
  has_services : Bool
  hooks : List Str
deriving DecidableEq

/-- Rust-project summary (`RustProjectInfo` in `structure.rs`). -/
structure RustProjectInfo where
  name : Str
  version : Str
  module_count : Nat
  struct_count : Nat
  has_lib : Bool
  has_bin : Bool
deriving DecidableEq

/-- Angular-project summary (`AngularProjectInfo` in `structure.rs`). -/
structure AngularProjectInfo where
  name : Str
  component_count : Nat
  service_count : Nat
  has_routing : Bool
  has_ngrx : Bool
deriving DecidableEq

/-- React-project summary (`ReactProjectInfo` in `structure.rs`). -/
structure ReactProjectInfo where
  name : Str
  component_count : Nat
  has_redux : Bool
  is_nextjs : Bool
  has_typescript : Bool
deriving DecidableEq

/-- Python-project summary (`PythonProjectInfo` in `structure.rs`). -/
structure PythonProjectInfo where
  name : Str
  class_count : Nat
  function_count : Nat
  has_django : Bool
  has_flask : Bool
  has_fastapi : Bool
deriving DecidableEq

/-- The `name:`/`description:` line scraping of `gather_drupal_module_info`
(last matching line wins; quotes stripped). -/
def drupalNameDescOf (content : Str) : Str × Str :=
  (rustLines content).foldl (fun nd line =>
    if pre? (str "name:") line then
      (trimMatchesChar (trimMatchesChar (trimL (trimStartMatchesL line (str "name:")))
        (Char.ofNat 34)) (Char.ofNat 39), nd.2)
    else if pre? (str "description:") line then
      (nd.1, trimMatchesChar (trimMatchesChar (trimL (trimStartMatchesL line
        (str "description:"))) (Char.ofNat 34)) (Char.ofNat 39))
    else nd) ([], [])

/-- `ProjectAnalyzer::gather_drupal_module_info`. -/
def gatherDrupalModuleInfo (fs : FS) (buckets : Buckets) : Option DrupalModuleInfo :=
  let infoYmlFiles : List FPath :=
    ((bucketsGet buckets (str "yml")).getD []).filter
      (fun p => endsWithL (pathToStr p) (str ".info.yml"))
  if infoYmlFiles.isEmpty then none
  else
    let infoFile : Option FPath :=
      match infoYmlFiles.find? (fun p => p.length = 1) with
      | some p => some p
      | none => infoYmlFiles.head?
    let nameDesc : Str × Str :=
      match infoFile with
      | some ip =>
        match readFile fs ip with
        | some content => drupalNameDescOf content
        | none => ([], [])
      | none => ([], [])
    let moduleFileName : Option Str :=
      match infoFile with
      | some ip =>
        match ip.getLast? with
        | some fname =>
          match rustFileStem fname with
          | some stem =>
            if endsWithL stem (str ".info") then some (trimEndMatchesL stem (str ".info"))
            else some stem
          | none => none
        | none => none
      | none => none
    let moduleFile : Option FPath :=
      match moduleFileName with
      | some nm =>
        if fsExists fs [nm ++ str ".module"] then some [nm ++ str ".module"] else none
      | none => none
    let configSchemas : List FPath :=
      ((bucketsGet buckets (str "yml")).getD []).filter
        (fun p => hasSub (pathToStr p) (str "/config/schema/"))
    let hasPlugins :=
      fsExists fs [str "src", str "Plugin"] ||
      (match moduleFile with
       | some mp =>
         match readFile fs mp with
         | some c => hasSub c (str "Plugin") || hasSub c (str "plugin")
         | none => false
       | none => false)
    let hasServices :=
      (match moduleFileName with
       | some nm => fsExists fs [nm ++ str ".services.yml"]
       | none => false) ||
      ((bucketsGet buckets (str "yml")).getD []).any
        (fun p => endsWithL (pathToStr p) (str ".services.yml"))
    let hooks0 : List Str :=
      match moduleFile with
      | some mp =>
        match readFile fs mp with
        | some c => hookCapturesIter c
        | none => []
      | none => []
    let hooks :=
      ((bucketsGet buckets (str "php")).getD []).foldl (fun acc p =>
        match readFile fs p with
        | some c =>
          let acc := (hookCapturesIter c).foldl (fun a h =>
            if a.contains h then a else a ++ [h]) acc
          ((annCapturesIter c).map (fun w => str "hook_" ++ w)).foldl (fun a h =>
            if a.contains h then a else a ++ [h]) acc
        | none => acc) hooks0
    some { name := if nameDesc.1.isEmpty then moduleFileName.getD (str "unknown")
                   else nameDesc.1,
           description := nameDesc.2,
           module_file := moduleFile,
           info_file := infoFile,
           config_schemas := configSchemas,
           has_plugins := hasPlugins,
           has_services := hasServices,
           hooks := hooks }

/-- The `name`/`version` line scraping of `gather_rust_project_info`
(`line.split('=').nth(1)` with quote trimming; either key may be overwritten
by any later line that starts with the same word). -/
def rustNameVerOf (content : Str) : Str × Str :=
  (rustLines content).foldl (fun nv line =>
    if pre? (str "name") (trimL line) then
      (((splitCh '=' line).get? 1).map (fun s =>
        trimMatchesChar (trimMatchesChar (trimL s) (Char.ofNat 34)) (Char.ofNat 39))
        |>.getD [], nv.2)
    else if pre? (str "version") (trimL line) then
      (nv.1, ((splitCh '=' line).get? 1).map (fun s =>
        trimMatchesChar (trimMatchesChar (trimL s) (Char.ofNat 34)) (Char.ofNat 39))
        |>.getD [])
    else nv) ([], [])

/-- `ProjectAnalyzer::gather_rust_project_info`. -/
def gatherRustProjectInfo (fs : FS) (buckets : Buckets) : Option RustProjectInfo :=
  if !fsExists fs [str "Cargo.toml"] then none
  else
    let nv : Str × Str :=
      match readFile fs [str "Cargo.toml"] with
      | some content => rustNameVerOf content
      | none => ([], [])
    let counts : Nat × Nat :=
      ((bucketsGet buckets (str "rs")).getD []).foldl (fun ms p =>
        match readFile fs p with
        | some c => (ms.1 + countOccs c (str "mod "), ms.2 + countOccs c (str "struct "))
        | none => ms) (0, 0)
    some { name := nv.1, version := nv.2,
           module_count := counts.1, struct_count := counts.2,
           has_lib := fsExists fs [str "src", str "lib.rs"],
           has_bin := fsExists fs [str "src", str "main.rs"] ||
                      fsExists fs [str "src", str "bin"] }

/-- The nested `find` chain extracting the project name from `angular.json`. -/
def angularNameOf (content : Str) : Str :=
  match findSub content (str "\"projects\"") with
  | none => []
  | some start =>
    match findSub (content.drop start) (str "\x7b") with
    | none => []
    | some ps =>
      match findSub (content.drop (start + ps + 1)) (str "\"") with
      | none => []
      | some ns =>
        let tail3 := content.drop (start + ps + 1 + ns + 1)
        let ne := (findSub tail3 (str "\"")).getD 0
        if ne > 0 then tail3.take ne else []

/-- `ProjectAnalyzer::gather_angular_project_info`. -/
def gatherAngularProjectInfo (fs : FS) (buckets : Buckets) :
    Option AngularProjectInfo :=
  if !fsExists fs [str "angular.json"] then none
  else
    let nm : Str :=
      match readFile fs [str "angular.json"] with
      | some content => angularNameOf content
      | none => []
    let tsFiles := (bucketsGet buckets (str "ts")).getD []
    let counts : Nat × Nat :=
      tsFiles.foldl (fun cs p =>
        let pathStr := pathToStr p
        let cs :=
          if endsWithL pathStr (str ".component.ts") then (cs.1 + 1, cs.2)
          else if endsWithL pathStr (str ".service.ts") then (cs.1, cs.2 + 1)
          else cs
        match readFile fs p with
        | some content =>
          if hasSub content (str "@Component") then (cs.1 + 1, cs.2)
          else if hasSub content (str "@Injectable") then (cs.1, cs.2 + 1)
          else cs
        | none => cs) (0, 0)
    some { name := nm, component_count := counts.1, service_count := counts.2,
           has_routing := tsFiles.any (fun p =>
             hasSub (pathToStr p) (str "routing") || hasSub (pathToStr p) (str "routes")),
           has_ngrx := tsFiles.any (fun p =>
             hasSub (pathToStr p) (str "reducer") || hasSub (pathToStr p) (str "action") ||
             hasSub (pathToStr p) (str "effect")) }

/-- The nested `find` chain extracting the package name from `package.json`. -/
def reactNameOf (content : Str) : Str :=
  match findSub content (str "\"name\"") with
  | none => []
  | some nameStart =>
    match findSub (content.drop nameStart) (str ":") with
    | none => []
    | some colon =>
      let startIdx := nameStart + colon + 1
      match findSub (content.drop startIdx) (str "\"") with
      | none => []
      | some qs =>
        let valueStart := startIdx + qs + 1
        match findSub (content.drop valueStart) (str "\"") with
        | none => []
        | some qe => (content.drop valueStart).take qe

/-- `ProjectAnalyzer::gather_react_project_info`. -/
def gatherReactProjectInfo (fs : FS) (buckets : Buckets) : Option ReactProjectInfo :=
  if !fsExists fs [str "package.json"] then none
  else
    let nmRedux : Str × Bool :=
      match readFile fs [str "package.json"] with
      | some content =>
        (reactNameOf content,
         hasSub content (str "\"redux\"") ||
         hasSub content (str "\"@reduxjs/toolkit\"") ||
         hasSub content (str "\"react-redux\""))
      | none => ([], false)
    let compCount0 :=
      ((bucketsGet buckets (str "jsx")).getD []).length +
      ((bucketsGet buckets (str "tsx")).getD []).length
    let compCount :=
      [str "js", str "ts"].foldl (fun n ext =>
        ((bucketsGet buckets ext).getD []).foldl (fun n p =>
          match readFile fs p with
          | some content =>
            if hasSub content (str "React") &&
                ((hasSub content (str "class ") && hasSub content (str "extends")) ||
                 (hasSub content (str "function ") && hasSub content (str "return"))) then
              n + 1
            else n
          | none => n) n) compCount0
    some { name := nmRedux.1, component_count := compCount, has_redux := nmRedux.2,
           is_nextjs := fsExists fs [str "pages"] ||
                        fsExists fs [str "src", str "pages"] ||
                        fsExists fs [str ".next"],
           has_typescript := (bucketsGet buckets (str "tsx")).isSome ||
                             (bucketsGet buckets (str "ts")).isSome }

/-- The quoted-value scraping after `name = ` / `name=` in
`gather_python_project_info` (`off` is the length of the key pattern). -/
def pyNameOf (content : Str) (pat : Str) (off : Nat) : Str :=
  match findSub content pat with
  | none => []
  | some pos =>
    match findSub (content.drop (pos + off)) (str "\"") with
    | none => []
    | some qs =>
      match findSub (content.drop (pos + off + qs + 1)) (str "\"") with
      | none => []
      | some qe => (content.drop (pos + off + qs + 1)).take qe

/-- `ProjectAnalyzer::gather_python_project_info`. -/
def gatherPythonProjectInfo (fs : FS) (buckets : Buckets) : Option PythonProjectInfo :=
  let nm0 : Str :=
    if fsExists fs [str "pyproject.toml"] then
      match readFile fs [str "pyproject.toml"] with
      | some content => pyNameOf content (str "name = ") 7
      | none => []
    else if fsExists fs [str "setup.py"] then
      match readFile fs [str "setup.py"] with
      | some content => pyNameOf content (str "name=") 5
      | none => []
    else []
  let nm := if nm0.isEmpty then fs.rootName else nm0
  let pyFiles := (bucketsGet buckets (str "py")).getD []
  let flags : Bool × Bool × Bool :=
    pyFiles.foldl (fun fl p =>
      match readFile fs p with
      | some content =>
        (fl.1 || hasSub content (str "django"),
         fl.2.1 || hasSub content (str "flask"),
         fl.2.2 || hasSub content (str "fastapi"))
      | none => fl) (false, false, false)
  let hasDjango := flags.1 || fsExists fs [str "manage.py"]
  let counts : Nat × Nat :=
    pyFiles.foldl (fun cs p =>
      match readFile fs p with
      | some content =>
        (cs.1 + countOccs content (str "class "), cs.2 + countOccs content (str "def "))
      | none => cs) (0, 0)
  some { name := nm, class_count := counts.1, function_count := counts.2,
         has_django := hasDjango, has_flask := flags.2.1, has_fastapi := flags.2.2 }

/-- The tagged union of type-specific summaries
(`SpecificProjectInfo` in `structure.rs`). -/
inductive SpecificProjectInfo where
  | Drupal : Option DrupalModuleInfo → SpecificProjectInfo
  | Rust : Option RustProjectInfo → SpecificProjectInfo
  | Angular : Option AngularProjectInfo → SpecificProjectInfo
  | React : Option ReactProjectInfo → SpecificProjectInfo
  | Python : Option PythonProjectInfo → SpecificProjectInfo
  | None : SpecificProjectInfo
deriving DecidableEq

/-- The aggregate classification result (`ProjectStructure` in `structure.rs`). -/
structure ProjectStructure where
  directories : List FPath
  files_by_type : Buckets
  project_type : Option ProjectType
  specific_info : SpecificProjectInfo
  modules : List (Str × FPath)
deriving DecidableEq

/-- `ProjectAnalyzer::analyze_project_structure`: scan, classify, then gather
the type-specific summary via the dispatch on the chosen project type. -/
def analyzeProjectStructure (fs : FS) : ProjectStructure :=
  let st := scanProjectFeatures fs
  let tm := determineProjectType fs st.feats st.buckets
  let specific :=
    match tm.1 with
    | ProjectType.DrupalModule =>
      SpecificProjectInfo.Drupal (gatherDrupalModuleInfo fs st.buckets)
    | ProjectType.Rust => SpecificProjectInfo.Rust (gatherRustProjectInfo fs st.buckets)
    | ProjectType.Angular =>
      SpecificProjectInfo.Angular (gatherAngularProjectInfo fs st.buckets)
    | ProjectType.React => SpecificProjectInfo.React (gatherReactProjectInfo fs st.buckets)
    | ProjectType.Python =>
      SpecificProjectInfo.Python (gatherPythonProjectInfo fs st.buckets)
    | _ => SpecificProjectInfo.None
  { directories := st.dirs, files_by_type := st.buckets,
    project_type := some tm.1, specific_info := specific, modules := tm.2 }

/-! ## Structural extractor, PHP function declarations (`src/analysis/parser.rs`) -/

/-- Framework-specific annotations attached to a code element
(`ElementMetadata` in `parser.rs`; the source fields `annotations` and
`namespace` are named `anns` and `nsp` here). -/
structure ElementMetadata where
  is_plugin : Bool
  plugin_type : Option Str
  is_service : Bool
  service_tags : List Str
  is_hook : Bool
  hook_name : Option Str
  anns : List Str
  nsp : Option Str
deriving DecidableEq

/-- One named declaration found in a file (`CodeElement` in `parser.rs`). -/
structure CodeElement where
  name : Str
  kind : Str
  line : Nat
  description : Option Str
  metadata : Option ElementMetadata
deriving DecidableEq

/-- The line loop of `extract_doc_comment_description`, stopping at the first
`@`-annotation line. -/
def docDescLines : List Str → Str
  | [] => []
  | line :: rest =>
    let trimmed := trimL (trimStartMatchesL (trimStartMatchesL (trimL line)
      (str "/**")) (str "*"))
    if pre? (str "@") trimmed then []
    else if trimmed.isEmpty then docDescLines rest
    else trimmed ++ str " " ++ docDescLines rest

/-- `CodeParser::extract_doc_comment_description`. -/
def extractDocCommentDescription (doc : Str) : Option Str :=
  if doc.isEmpty then none
  else
    let d := trimL (docDescLines (rustLines doc))
    if d.isEmpty then none else some d

/-- `CodeParser::extract_function_definition`: Drupal-aware classification of
one (already trimmed) PHP `function` declaration line.  The Rust code
`unwrap`s the `strip_prefix`, relying on the caller having checked the
prefix; a line without the prefix is embedded as `none`. -/
def extractFunctionDefinition (line : Str) (lineIdx : Nat) (docComment : Str)
    (anns : List Str) (nsp : Option Str) (isDrupalMod : Bool) :
    Option CodeElement :=
  match stripPre (str "function ") line with
  | none => none
  | some rest =>
    let name := trimL ((splitCh '(' rest).headD rest)
    let isHook := hasSub name (str "_hook_") ||
      anns.any (fun a => hasSub a (str "@Implements") || hasSub a (str "@implements"))
    let hookName : Option Str :=
      if isHook then
        if hasSub name (str "_hook_") then
          let parts := splitCh '_' name
          if 3 ≤ parts.length ∧ parts.get? 1 = some (str "hook") then
            some (str "hook_" ++ intercal (str "_") (parts.drop 2))
          else none
        else
          match anns.find? (fun a =>
            hasSub a (str "@Implements") || hasSub a (str "@implements")) with
          | some a => (implementsHookCapture a).map (fun w => str "hook_" ++ w)
          | none => none
      else none
    let kind := if isHook then str "drupal_hook"
                else if isDrupalMod then str "drupal_function"
                else str "function"
    some { name := name, kind := kind, line := lineIdx,
           description := extractDocCommentDescription docComment,
           metadata := some { is_plugin := false, plugin_type := none,
                              is_service := false, service_tags := [],
                              is_hook := isHook, hook_name := hookName,
                              anns := anns, nsp := nsp } }

/-! ## Concrete project trees used by the theorems -/

/-- A tree holding both a Rust manifest and a Drupal module at the standard
nested location. -/
def drupalCargoFs : FS :=
  { rootName := str "proj",
    entries :=
      [{ path := [str "web"], isDir := true, content := [] },
       { path := [str "web", str "modules"], isDir := true, content := [] },
       { path := [str "web", str "modules", str "custom"], isDir := true, content := [] },
       { path := [str "web", str "modules", str "custom", str "foo"], isDir := true,
         content := [] },
       { path := [str "web", str "modules", str "custom", str "foo", str "foo.info.yml"],
         isDir := false, content := str "name: Foo Module" },
       { path := [str "Cargo.toml"], isDir := false, content := str "[package]" }] }

/-- A tree whose only manifest is a Rust one. -/
def cargoOnlyFs : FS :=
  { rootName := str "demo",
    entries := [{ path := [str "Cargo.toml"], isDir := false, content := str "[package]" }] }

/-- A tree with a single JavaScript file beneath a `node_modules` directory. -/
def nodeModulesFs : FS :=
  { rootName := str "proj",
    entries :=
      [{ path := [str "node_modules"], isDir := true, content := [] },
       { path := [str "node_modules", str "foo.js"], isDir := false,
         content := str "var x = 1;" }] }

/-- The scenario-B tree: `web/modules/custom/foo/foo.info.yml` with
`name: Foo Module`, and `foo.module` containing `function foo_hook_cron() {}`. -/
def scenarioBFs : FS :=
  { rootName := str "proj",
    entries :=
      [{ path := [str "web"], isDir := true, content := [] },
       { path := [str "web", str "modules"], isDir := true, content := [] },
       { path := [str "web", str "modules", str "custom"], isDir := true, content := [] },
       { path := [str "web", str "modules", str "custom", str "foo"], isDir := true,
         content := [] },
       { path := [str "web", str "modules", str "custom", str "foo", str "foo.info.yml"],
         isDir := false, content := str "name: Foo Module" },
       { path := [str "web", str "modules", str "custom", str "foo", str "foo.module"],
         isDir := false, content := str "function foo_hook_cron() \x7b\x7d" }] }

/-- A single Rust-looking file whose content contains no search keyword. -/
def rustSigFiles : List (FPath × Str) := [([str "a.rs"], str "fn use std::")]

/-- A tree with a single `.rs` file, used to instantiate the bucket
invariant. -/
def rustFileFs : FS :=
  { rootName := str "demo",
    entries := [{ path := [str "a.rs"], isDir := false, content := str "fn main() \x7b\x7d" }] }

/-! ## Theorems -/

/-- Monotonicity of an additive fold in both the accumulator and the
per-element contributions. -/
theorem foldl_add_le {α : Type} (f g : α → Nat) :
    ∀ (l : List α) (a b : Nat), a ≤ b → (∀ x ∈ l, f x ≤ g x) →
      l.foldl (fun acc x => acc + f x) a ≤ l.foldl (fun acc x => acc + g x) b := by
  intro l
  induction l with
  | nil => intro a b hab _; simpa using hab
  | cons x xs ih =>
    intro a b hab h
    simp only [List.foldl_cons]
    exact ih _ _ (Nat.add_le_add hab (h x (List.mem_cons_self x xs)))
      (fun y hy => h y (List.mem_cons_of_mem _ hy))

/-- One keyword's contribution to the relevance score is monotone in its
occurrence count (the boost depends only on the keyword and the signatures). -/
theorem keywordTerm_le (cl1 cl2 : Str) (sigs : LanguageSignatures) (kw : Str)
    (h : countOccs cl1 (toLowerL kw) ≤ countOccs cl2 (toLowerL kw)) :
    keywordTerm cl1 sigs kw ≤ keywordTerm cl2 sigs kw := by
  unfold keywordTerm
  by_cases hb : getLanguageBoost (toLowerL kw) sigs > 1
  · simpa [hb] using Nat.mul_le_mul_right _ h
  · simpa [hb] using h

/-- The flat bonus depends on the content only through the three
framework-namespace substring flags. -/
theorem langBonus_congr (lang : SearchLanguage) (sigs : LanguageSignatures)
    (kws : List Str) (cl1 cl2 : Str)
    (hp : hasSub cl1 (str "\\plugin\\") = hasSub cl2 (str "\\plugin\\"))
    (hf : hasSub cl1 (str "\\form\\") = hasSub cl2 (str "\\form\\"))
    (he : hasSub cl1 (str "\\entity\\") = hasSub cl2 (str "\\entity\\")) :
    langBonus lang sigs kws cl1 = langBonus lang sigs kws cl2 := by
  cases lang <;> simp only [langBonus, hp, hf, he]

/-- C3, counterexample.  The claim says that adding to the keyword list a
keyword occurring once more in the content never decreases the score.  On
the file content `fn use std:: module` the query `["rust"]` scores 25 (flat
Rust bonus), but adding the keyword `module` — which occurs exactly once in
the content — re-infers the search language as Drupal, forfeits the Rust
bonus, and drops the score to 1. -/
theorem c3_monotonicity_counterexample :
    calcRelevance (str "fn use std:: module") [str "rust"] = 25 ∧
    countOccs (toLowerL (str "fn use std:: module")) (toLowerL (str "module")) = 1 ∧
    calcRelevance (str "fn use std:: module") [str "rust", str "module"] = 1 ∧
    calcRelevance (str "fn use std:: module") [str "rust", str "module"] <
      calcRelevance (str "fn use std:: module") [str "rust"] := by
  refine ⟨by decide, by decide, by decide, by decide⟩

/-- C3, amended.  The relevance score is a non-negative integer, and for a
fixed keyword list it is monotonically non-decreasing in the keywords'
occurrence counts as long as the file's detected language signatures and
framework-marker substrings are unchanged; adding a keyword, however, may
change the inferred search language and decrease the score. -/
theorem c3_relevance_monotone_amended (c1 c2 : Str) (kws : List Str)
    (hsig : detectLanguageSignatures (toLowerL c1) = detectLanguageSignatures (toLowerL c2))
    (hplug : hasSub (toLowerL c1) (str "\\plugin\\") = hasSub (toLowerL c2) (str "\\plugin\\"))
    (hform : hasSub (toLowerL c1) (str "\\form\\") = hasSub (toLowerL c2) (str "\\form\\"))
    (hent : hasSub (toLowerL c1) (str "\\entity\\") = hasSub (toLowerL c2) (str "\\entity\\"))
    (hdru : hasSub (toLowerL c1) (str "drupal") = hasSub (toLowerL c2) (str "drupal"))
    (hcnt : ∀ kw ∈ kws, countOccs (toLowerL c1) (toLowerL kw) ≤
        countOccs (toLowerL c2) (toLowerL kw)) :
    0 ≤ calcRelevance c1 kws ∧ calcRelevance c1 kws ≤ calcRelevance c2 kws := by
  refine ⟨Nat.zero_le _, ?_⟩
  have hks : keywordScore (toLowerL c1) (detectLanguageSignatures (toLowerL c2)) kws ≤
      keywordScore (toLowerL c2) (detectLanguageSignatures (toLowerL c2)) kws := by
    unfold keywordScore
    exact foldl_add_le _ _ kws 0 0 le_rfl
      (fun kw hk => keywordTerm_le _ _ _ _ (hcnt kw hk))
  simp only [calcRelevance, hsig]
  cases hdsl : detectSearchLanguage kws with
  | none => exact hks
  | some lang =>
    dsimp only
    rw [langBonus_congr lang _ kws _ _ hplug hform hent, hdru]
    have hadd := Nat.add_le_add_right hks
      (langBonus lang (detectLanguageSignatures (toLowerL c2)) kws (toLowerL c2))
    split
    · exact Nat.div_le_div_right hadd
    · exact hadd

/-- C3, witness for the amended theorem. -/
theorem c3_relevance_monotone_amended_witness :
    0 ≤ calcRelevance (str "") [str "x"] ∧
    calcRelevance (str "") [str "x"] ≤ calcRelevance (str "xx") [str "x"] :=
  c3_relevance_monotone_amended (str "") (str "xx") [str "x"] (by decide) (by decide)
    (by decide) (by decide) (by decide) (by decide)

/-- C7.  The halving penalty fires exactly when the inferred search language
is Drupal, the file's signatures flag JavaScript, and the lowercased content
lacks the substring `drupal`; in every other case the score equals the
penalty-free score, so no analogous halving applies to any other
(search-language, signature) pair. -/
theorem c7_drupal_js_penalty (content : Str) (kws : List Str) :
    calcRelevance content kws =
      if detectSearchLanguage kws = some SearchLanguage.Drupal ∧
          (detectLanguageSignatures (toLowerL content)).is_javascript = true ∧
          hasSub (toLowerL content) (str "drupal") = false then
        calcRelevanceNoPenalty content kws / 2
      else calcRelevanceNoPenalty content kws := by
  simp only [calcRelevance, calcRelevanceNoPenalty]
  cases hdsl : detectSearchLanguage kws with
  | none => simp [hdsl]
  | some lang =>
    simp only [hdsl, Option.some.injEq]

/-- C8.  With an unparseable pattern, `search_in_files` fails as a whole:
the error is returned before any file is examined (the result does not
depend on the file list) and no partial results are produced. -/
theorem c8_invalid_regex_hard_failure (compileRx : Str → Option (Str → Bool))
    (files1 files2 : List (FPath × Str)) (pattern : Str)
    (h : compileRx pattern = none) :
    searchInFiles compileRx files1 pattern = Except.error () ∧
    searchInFiles compileRx files1 pattern = searchInFiles compileRx files2 pattern := by
  unfold searchInFiles
  rw [h]
  exact ⟨rfl, rfl⟩

/-- C8, witness. -/
theorem c8_invalid_regex_hard_failure_witness :
    searchInFiles (fun _ => none) [([str "a.txt"], str "hello")] (str "(") =
      Except.error () ∧
    searchInFiles (fun _ => none) [([str "a.txt"], str "hello")] (str "(") =
      searchInFiles (fun _ => none) [] (str "(") :=
  c8_invalid_regex_hard_failure (fun _ => none) [([str "a.txt"], str "hello")] [] (str "(")
    rfl

/-- C9.  A file whose content matches the inferred search language collects
the flat language bonus even when no keyword occurs in it at all: on
`fn use std::` the keyword `rust` occurs zero times, yet the score is 25 and
`find_relevant_files` returns the file. -/
theorem c9_bonus_without_keyword_occurrence :
    countOccs (toLowerL (str "fn use std::")) (toLowerL (str "rust")) = 0 ∧
    calcRelevance (str "fn use std::") [str "rust"] = 25 ∧
    0 < calcRelevance (str "fn use std::") [str "rust"] ∧
    findRelevantFiles rustSigFiles [str "rust"] = [[str "a.rs"]] := by
  refine ⟨by decide, by decide, by decide, by decide⟩

/-- Membership after a bucket insertion: the element was already in the
mapping, or it is the freshly inserted path under the inserted key. -/
theorem mem_bucketsInsert :
    ∀ (b : Buckets) (k : Str) (q : FPath) (k' : Str) (ps : List FPath) (p : FPath),
      bucketsGet (bucketsInsert b k q) k' = some ps → p ∈ ps →
      (∃ ps', bucketsGet b k' = some ps' ∧ p ∈ ps') ∨ (p = q ∧ k' = k) := by
  intro b
  induction b with
  | nil =>
    intro k q k' ps p hget hmem
    simp only [bucketsInsert, bucketsGet] at hget
    split at hget
    · rename_i hk
      cases hget
      right
      exact ⟨by simpa using hmem, hk.symm⟩
    · cases hget
  | cons hd tl ih =>
    intro k q k' ps p hget hmem
    obtain ⟨k0, ps0⟩ := hd
    simp only [bucketsInsert] at hget
    split at hget
    · rename_i hk0k
      simp only [bucketsGet] at hget
      split at hget
      · rename_i hk0k'
        cases hget
        rcases List.mem_append.1 hmem with h | h
        · left
          exact ⟨ps0, by simp only [bucketsGet]; rw [if_pos hk0k'], h⟩
        · right
          exact ⟨by simpa using h, by rw [← hk0k', hk0k]⟩
      · rename_i hk0k'
        left
        exact ⟨ps, by simp only [bucketsGet]; rw [if_neg hk0k']; exact hget, hmem⟩
    · rename_i hk0k
      simp only [bucketsGet] at hget
      split at hget
      · rename_i hk0k'
        cases hget
        left
        exact ⟨ps, by simp only [bucketsGet]; rw [if_pos hk0k'], hmem⟩
      · rename_i hk0k'
        rcases ih k q k' ps p hget hmem with ⟨ps', hg, hm⟩ | hr
        · left
          exact ⟨ps', by simp only [bucketsGet]; rw [if_neg hk0k']; exact hg, hm⟩
        · right
          exact hr

/-- One walk step either leaves the extension mapping unchanged or inserts
the file under exactly its own extension. -/
theorem scanStep_buckets (st : ScanState) (e : Entry) :
    (scanStep st e).buckets = st.buckets ∨
    ∃ ext, pathExtension e.path = some ext ∧
      (scanStep st e).buckets = bucketsInsert st.buckets ext e.path := by
  unfold scanStep
  split
  · split
    · exact Or.inl rfl
    · exact Or.inl rfl
  · split
    · exact Or.inl rfl
    · cases hx : pathExtension e.path with
      | none => exact Or.inl rfl
      | some ext => exact Or.inr ⟨ext, rfl, rfl⟩

/-- The bucket invariant is preserved by the whole walk fold. -/
theorem scanFold_buckets_inv :
    ∀ (entries : List Entry) (st : ScanState),
      (∀ k ps p, bucketsGet st.buckets k = some ps → p ∈ ps → pathExtension p = some k) →
      ∀ k ps p, bucketsGet (entries.foldl scanStep st).buckets k = some ps → p ∈ ps →
        pathExtension p = some k := by
  intro entries
  induction entries with
  | nil => intro st h; exact h
  | cons e es ih =>
    intro st h
    apply ih
    intro k ps p hget hmem
    rcases scanStep_buckets st e with heq | ⟨ext, hext, heq⟩
    · rw [heq] at hget
      exact h k ps p hget hmem
    · rw [heq] at hget
      rcases mem_bucketsInsert st.buckets ext e.path k ps p hget hmem with
        ⟨ps', hg, hm⟩ | ⟨hp, hk⟩
      · exact h k ps' p hg hm
      · rw [hp, hk]
        exact hext

/-- C10.  Every file recorded in the extension-to-files mapping built by
`scan_project_features` sits in the bucket of exactly its own extension; in
particular a file whose name has no extension is never recorded. -/
theorem c10_extension_bucket_exact (fs : FS) (k : Str) (ps : List FPath) (p : FPath)
    (hget : bucketsGet (scanProjectFeatures fs).buckets k = some ps)
    (hmem : p ∈ ps) :
    pathExtension p = some k := by
  have hb : (scanProjectFeatures fs).buckets =
      (fs.entries.foldl scanStep { feats := {}, dirs := [], buckets := [] }).buckets := rfl
  rw [hb] at hget
  exact scanFold_buckets_inv fs.entries _ (fun k ps p hg _ => by cases hg) k ps p hget hmem

/-- C10, witness. -/
theorem c10_extension_bucket_exact_witness :
    pathExtension [str "a.rs"] = some (str "rs") :=
  c10_extension_bucket_exact rustFileFs (str "rs") [[str "a.rs"]] [str "a.rs"]
    (by decide) (by decide)

/-- C2.  `node_modules` is on the directory ignore list (and is excluded from
the recorded directory list), yet the walk does not prune ignored directories,
so the file `node_modules/foo.js` is still recorded in the `js` bucket of the
extension-to-files mapping. -/
theorem c2_ignored_dir_file_bucketed :
    shouldIgnoreDir [str "node_modules"] = true ∧
    (scanProjectFeatures nodeModulesFs).dirs = [] ∧
    bucketsGet (scanProjectFeatures nodeModulesFs).buckets (str "js") =
      some [[str "node_modules", str "foo.js"]] := by
  refine ⟨by decide, by decide, by decide⟩

/-- C1, counterexample.  A tree containing both `Cargo.toml` and a Drupal
module in `web/modules/custom` is classified as the Drupal site type, not
Rust: the Drupal branch of `determine_project_type` precedes the Rust check. -/
theorem c1_cargo_drupal_counterexample :
    (scanProjectFeatures drupalCargoFs).feats.has_cargo_toml = true ∧
    (analyzeProjectStructure drupalCargoFs).project_type = some ProjectType.Drupal ∧
    (analyzeProjectStructure drupalCargoFs).project_type ≠ some ProjectType.Rust := by
  refine ⟨by decide, by decide, by decide⟩

/-- C1, amended.  When the Drupal branch does not fire — the Drupal site/info
markers are absent, or no Drupal module is discovered — a tree with
`Cargo.toml` is classified as the Rust project type, ahead of every later
branch of the priority ladder. -/
theorem c1_rust_classification_amended (fs : FS) (feats : ProjectFeatures)
    (buckets : Buckets) (hc : feats.has_cargo_toml = true)
    (hd : ((feats.has_drupal_core || feats.has_drupal_modules_dir) ||
          (feats.has_info_yml && (feats.has_drupal_module_file || feats.has_drupal_php_code)))
          = false ∨
        findAllDrupalModules fs = []) :
    determineProjectType fs feats buckets = (ProjectType.Rust, []) := by
  unfold determineProjectType fallbackProjectType
  rcases hd with hd | hd
  · simp [hd, hc]
  · simp [hd, hc]

/-- C1, witness for the amended theorem. -/
theorem c1_rust_classification_amended_witness :
    determineProjectType cargoOnlyFs (scanProjectFeatures cargoOnlyFs).feats
      (scanProjectFeatures cargoOnlyFs).buckets = (ProjectType.Rust, []) :=
  c1_rust_classification_amended cargoOnlyFs _ _ (by decide) (Or.inl (by decide))

/-- C4, counterexample.  The scenario-B tree is not classified as the
framework-module type: its module directories are nested below the root, so
the root itself fails the module predicate. -/
theorem c4_scenarioB_counterexample :
    (analyzeProjectStructure scenarioBFs).project_type ≠
      some ProjectType.DrupalModule := by
  decide

/-- C4, amended.  On the scenario-B tree the classifier discovers the module
`foo` at `web/modules/custom/foo` but assigns the Drupal *site* type to the
root, and the specific-info dispatch therefore produces the empty payload —
no hooks list is gathered. -/
theorem c4_scenarioB_amended :
    (analyzeProjectStructure scenarioBFs).project_type = some ProjectType.Drupal ∧
    (analyzeProjectStructure scenarioBFs).modules =
      [(str "foo", [str "web", str "modules", str "custom", str "foo"])] ∧
    (analyzeProjectStructure scenarioBFs).specific_info = SpecificProjectInfo.None := by
  refine ⟨by decide, by decide, by decide⟩

/-- Membership characterization for one step of the `find_relevant_files`
loop. -/
theorem relevantStep_mem (kws : List Str) (acc : List (FPath × Nat))
    (pc : FPath × Str) (x : FPath × Nat) (hx : x ∈ relevantStep kws acc pc) :
    x ∈ acc ∨ (x = (pc.1, calcRelevance pc.2 kws) ∧ 0 < calcRelevance pc.2 kws) := by
  unfold relevantStep at hx
  split at hx
  · exact Or.inl hx
  · dsimp only at hx
    split at hx
    · rename_i hr
      rcases List.mem_append.1 hx with h | h
      · exact Or.inl h
      · exact Or.inr ⟨by simpa using h, hr⟩
    · exact Or.inl hx

/-- Membership characterization for the whole `find_relevant_files` loop. -/
theorem relevantAccum_mem (kws : List Str) :
    ∀ (files : List (FPath × Str)) (acc : List (FPath × Nat)) (x : FPath × Nat),
      x ∈ files.foldl (relevantStep kws) acc →
      x ∈ acc ∨ ∃ pc, pc ∈ files ∧ x = (pc.1, calcRelevance pc.2 kws) ∧
        0 < calcRelevance pc.2 kws := by
  intro files
  induction files with
  | nil => intro acc x hx; exact Or.inl hx
  | cons pc fs ih =>
    intro acc x hx
    rcases ih _ x hx with hacc | ⟨pc', hm, he, hp⟩
    · rcases relevantStep_mem kws acc pc x hacc with h | ⟨he, hp⟩
      · exact Or.inl h
      · exact Or.inr ⟨pc, List.mem_cons_self _ _, he, hp⟩
    · exact Or.inr ⟨pc', List.mem_cons_of_mem _ hm, he, hp⟩

/-- C6.  `find_relevant_files` returns the eligible files in descending
relevance order, and every entry of the scored list carries the strictly
positive relevance of one of the walked files — files scoring zero are
excluded entirely. -/
theorem c6_descending_order_positive (files : List (FPath × Str)) (kws : List Str) :
    List.Sorted (fun a b => b.2 ≤ a.2) (scoredFiles files kws) ∧
    findRelevantFiles files kws = (scoredFiles files kws).map Prod.fst ∧
    ∀ x ∈ scoredFiles files kws,
      0 < x.2 ∧ ∃ pc, pc ∈ files ∧ x = (pc.1, calcRelevance pc.2 kws) := by
  haveI : IsTotal (FPath × Nat) (fun a b => b.2 ≤ a.2) :=
    ⟨fun a b => Nat.le_total b.2 a.2⟩
  haveI : IsTrans (FPath × Nat) (fun a b => b.2 ≤ a.2) :=
    ⟨fun _ _ _ h1 h2 => Nat.le_trans h2 h1⟩
  refine ⟨?_, rfl, ?_⟩
  · unfold scoredFiles
    split
    · exact List.sorted_nil
    · exact List.sorted_insertionSort _ _
  · intro x hx
    unfold scoredFiles at hx
    split at hx
    · cases hx
    · have hx' := (List.mem_insertionSort _).1 hx
      rcases relevantAccum_mem kws files [] x hx' with h | ⟨pc, hm, he, hp⟩
      · cases h
      · exact ⟨by rw [he]; exact hp, pc, hm, he⟩

/-- C6, witness. -/
theorem c6_descending_order_positive_witness :
    0 < (([str "a.rs"], 25) : FPath × Nat).2 ∧
    ∃ pc, pc ∈ rustSigFiles ∧
      (([str "a.rs"], 25) : FPath × Nat) = (pc.1, calcRelevance pc.2 [str "rust"]) :=
  (c6_descending_order_positive rustSigFiles [str "rust"]).2.2
    ([str "a.rs"], 25) (by decide)

/-- C5, counterexample.  The function name `my_module_hook_cron` contains
`_hook_`, so the extractor classifies it as a hook (`drupal_hook`,
`is_hook = true`), but because the prefix `my_module` itself contains an
underscore the metadata `hook_name` is `None`, not the claimed canonical
`hook_cron`. -/
theorem c5_hook_name_counterexample :
    ((extractFunctionDefinition (str "function my_module_hook_cron() \x7b\x7d") 5 []
        [] none true).map CodeElement.kind) = some (str "drupal_hook") ∧
    (((extractFunctionDefinition (str "function my_module_hook_cron() \x7b\x7d") 5 []
        [] none true).bind CodeElement.metadata).map ElementMetadata.is_hook) =
      some true ∧
    (((extractFunctionDefinition (str "function my_module_hook_cron() \x7b\x7d") 5 []
        [] none true).bind CodeElement.metadata).map ElementMetadata.hook_name) =
      some none ∧
    (((extractFunctionDefinition (str "function my_module_hook_cron() \x7b\x7d") 5 []
        [] none true).bind CodeElement.metadata).map ElementMetadata.hook_name) ≠
      some (some (str "hook_cron")) := by
  refine ⟨by decide, by decide, by decide, by decide⟩

/-- C5, amended.  Any function name containing `_hook_` (or carrying an
`@Implements` annotation) is classified as a hook implementation with kind
`drupal_hook` and `is_hook = true`; the metadata `hook_name`, however, is
resolved to the canonical `hook_<suffix>` only when splitting the name on
underscores yields at least three parts whose second part is exactly `hook`
(a single-token prefix), and is `None` otherwise.  An `@Implements hook_X`
annotation resolves to `hook_X` via the annotation regex. -/
theorem c5_hook_classification_amended (line rest name : Str) (lineIdx : Nat)
    (doc : Str) (anns : List Str) (nsp : Option Str) (dm : Bool)
    (hline : stripPre (str "function ") line = some rest)
    (hname : trimL ((splitCh '(' rest).headD rest) = name) :
    (hasSub name (str "_hook_") = true →
      ∃ e, extractFunctionDefinition line lineIdx doc anns nsp dm = some e ∧
        e.kind = str "drupal_hook" ∧
        e.metadata.map ElementMetadata.is_hook = some true ∧
        e.metadata.map ElementMetadata.hook_name = some (
          if 3 ≤ (splitCh '_' name).length ∧
              (splitCh '_' name).get? 1 = some (str "hook") then
            some (str "hook_" ++ intercal (str "_") ((splitCh '_' name).drop 2))
          else none)) ∧
    (hasSub name (str "_hook_") = false →
      ∀ a, anns.find? (fun a =>
          hasSub a (str "@Implements") || hasSub a (str "@implements")) = some a →
        ∃ e, extractFunctionDefinition line lineIdx doc anns nsp dm = some e ∧
          e.kind = str "drupal_hook" ∧
          e.metadata.map ElementMetadata.is_hook = some true ∧
          e.metadata.map ElementMetadata.hook_name =
            some ((implementsHookCapture a).map (fun w => str "hook_" ++ w))) := by
  unfold extractFunctionDefinition
  rw [hline]
  dsimp only
  rw [hname]
  constructor
  · intro hh
    refine ⟨_, rfl, ?_, ?_, ?_⟩
    · simp [hh]
    · simp [hh]
    · simp [hh]
  · intro hh a hfind
    have hpred := List.find?_some hfind
    have hmem := List.mem_of_find?_eq_some hfind
    have hany : anns.any (fun a =>
        hasSub a (str "@Implements") || hasSub a (str "@implements")) = true :=
      List.any_eq_true.2 ⟨a, hmem, hpred⟩
    refine ⟨_, rfl, ?_, ?_, ?_⟩
    · simp [hh, hany]
    · simp [hh, hany]
    · simp [hh, hany, hfind]

/-- C5, witness for the amended theorem. -/
theorem c5_hook_classification_amended_witness :
    ∃ e, extractFunctionDefinition (str "function foo_hook_cron() \x7b\x7d") 3 []
        [] none true = some e ∧
      e.kind = str "drupal_hook" ∧
      e.metadata.map ElementMetadata.is_hook = some true ∧
      e.metadata.map ElementMetadata.hook_name = some (
        if 3 ≤ (splitCh '_' (str "foo_hook_cron")).length ∧
            (splitCh '_' (str "foo_hook_cron")).get? 1 = some (str "hook") then
          some (str "hook_" ++ intercal (str "_")
            ((splitCh '_' (str "foo_hook_cron")).drop 2))
        else none) :=
  (c5_hook_classification_amended (str "function foo_hook_cron() \x7b\x7d")
    (str "foo_hook_cron() \x7b\x7d") (str "foo_hook_cron") 3 [] [] none true
    (by decide) (by decide)).1 (by decide)
